import Mathlib

/-!
Verification of the nuScenes scene point-cloud OBJ exporter
(`python-sdk/examples/export_pointclouds_as_obj.py`).

The script is embedded shallowly: 3-D points and matrices are exact rationals,
the record database and the file loaders are explicit finite maps, and all
fallible operations run in the `Except String` monad.  External collaborators
that are not part of the repository source (the record store `NuScenes.get`,
`PointCloud.from_file`, `PIL` image decoding, `view_points`) are modelled from
the specification, as indicated on the corresponding definitions.
-/

/-- A 3-D point or translation vector with exact rational coordinates,
the idealisation of one column of the script's float arrays. -/
structure Vec3 where
  x : ℚ
  y : ℚ
  z : ℚ
deriving DecidableEq

instance : Add Vec3 where
  add a b := ⟨a.x + b.x, a.y + b.y, a.z + b.z⟩

instance : Neg Vec3 where
  neg a := ⟨-a.x, -a.y, -a.z⟩

/-- A 3 by 3 matrix with rational entries, row major; stands for the rotation
matrices and the camera intrinsic matrix of the script. -/
structure Mat3 where
  a00 : ℚ
  a01 : ℚ
  a02 : ℚ
  a10 : ℚ
  a11 : ℚ
  a12 : ℚ
  a20 : ℚ
  a21 : ℚ
  a22 : ℚ
deriving DecidableEq

/-- Matrix-vector product, the `np.dot(R, points)` of `PointCloud.rotate`. -/
def Mat3.mulVec (m : Mat3) (v : Vec3) : Vec3 :=
  ⟨m.a00 * v.x + m.a01 * v.y + m.a02 * v.z,
   m.a10 * v.x + m.a11 * v.y + m.a12 * v.z,
   m.a20 * v.x + m.a21 * v.y + m.a22 * v.z⟩

/-- Matrix transpose, the `.T` applied to rotation matrices in the script. -/
def Mat3.transpose (m : Mat3) : Mat3 :=
  ⟨m.a00, m.a10, m.a20, m.a01, m.a11, m.a21, m.a02, m.a12, m.a22⟩

/-- One decoded image pixel: a raw 8-bit RGB triple, as produced by
`np.array(im)` on an RGB image. -/
structure RGB where
  r : Fin 256
  g : Fin 256
  b : Fin 256
deriving DecidableEq

/-- The rational column written into the float coloring buffer for a pixel. -/
def toQ (c : RGB) : Vec3 :=
  ⟨((c.r : ℕ) : ℚ), ((c.g : ℕ) : ℚ), ((c.b : ℕ) : ℚ)⟩

/-- Modelled from the spec: the decoded image grid of section 6 (the `PIL`
image loader is external).  `width`/`height` are `im.size[0]`/`im.size[1]`
and `pixel row col` is the RGB triple `im_data[row, col]`. -/
structure Image where
  width : ℕ
  height : ℕ
  pixel : ℕ → ℕ → RGB

/-- Rounding to the nearest integer with ties to even, the behaviour of
`np.round` used by the color lookup (and of Python float formatting). -/
def nround (q : ℚ) : ℤ :=
  let f := ⌊q⌋
  let r : ℚ := q - (f : ℚ)
  if r < 1 / 2 then f
  else if 1 / 2 < r then f + 1
  else if 2 ∣ f then f else f + 1

/-- Left-pads a digit string with zeros to the requested width. -/
def padZeros (n : ℕ) (s : String) : String :=
  String.mk (List.replicate (n - s.length) '0') ++ s

/-- Fixed-point decimal formatting of a rational with `prec` digits after the
point: the idealisation of Python `"{:.Nf}".format` used for the vertex
lines. -/
def fmtFixed (prec : ℕ) (q : ℚ) : String :=
  let sign := if q < 0 then "-" else ""
  let m := (nround (|q| * 10 ^ prec)).toNat
  sign ++ toString (m / 10 ^ prec) ++ "." ++ padZeros prec (toString (m % 10 ^ prec))

/-- The invalid-color sentinel: one column of `np.ones((3, n)) * -1`. -/
def sentinel : Vec3 := ⟨-1, -1, -1⟩

/-- The `(c == -1).any()` test guarding the vertex write. -/
def hasInvalid (c : Vec3) : Bool :=
  decide (c.x = -1) || decide (c.y = -1) || decide (c.z = -1)

/-- One output vertex line:
`"v {v[0]:.8f} {v[1]:.8f} {v[2]:.8f} {c[0]:.4f} {c[1]:.4f} {c[2]:.4f}"`
formatted from the point `v` and the raw color column `c` divided by 255. -/
def vertexLine (v c : Vec3) : String :=
  "v " ++ fmtFixed 8 v.x ++ " " ++ fmtFixed 8 v.y ++ " " ++ fmtFixed 8 v.z ++ " "
    ++ fmtFixed 4 (c.x / 255) ++ " " ++ fmtFixed 4 (c.y / 255) ++ " "
    ++ fmtFixed 4 (c.z / 255)

/-- The final write loop of a frame: `for (v, c) in zip(...)` emits a vertex
line unless the color still contains the invalid value. -/
def emitLines (pts coloring : List Vec3) : List String :=
  (pts.zip coloring).filterMap fun vc =>
    if hasInvalid vc.2 then none else some (vertexLine vc.1 vc.2)

/-- Boolean-mask column selection `a[:, mask]` of numpy. -/
def selectMask {α : Type} : List Bool → List α → List α
  | b :: bs, x :: xs => if b then x :: selectMask bs xs else selectMask bs xs
  | _, _ => []

/-- Boolean-mask column assignment `a[:, mask] = new` of numpy: the columns of
`old` at the true positions of `mask` are replaced, in order, by the columns
of `new`. -/
def scatter {α : Type} : List α → List Bool → List α → List α
  | [], _, _ => []
  | o :: os, [], _ => o :: os
  | o :: os, b :: bs, new =>
    if b then
      match new with
      | c :: cs => c :: scatter os bs cs
      | [] => o :: scatter os bs []
    else o :: scatter os bs new

/-- Euclidean distance of a point from the origin,
`np.sqrt(np.sum(points ** 2))` of the ego-frame distance filter. -/
noncomputable def distOrigin (p : Vec3) : ℝ :=
  Real.sqrt (((p.x ^ 2 + p.y ^ 2 + p.z ^ 2 : ℚ) : ℝ))

instance (q : ℚ) (p : Vec3) : Decidable ((q : ℝ) ≤ distOrigin p) :=
  decidable_of_iff (q ≤ 0 ∨ q ^ 2 ≤ p.x ^ 2 + p.y ^ 2 + p.z ^ 2) (by
    constructor
    · rintro (hq | hq)
      · calc ((q : ℝ)) ≤ 0 := by exact_mod_cast hq
          _ ≤ distOrigin p := Real.sqrt_nonneg _
      · rcases le_or_lt q 0 with h0 | h0
        · calc ((q : ℝ)) ≤ 0 := by exact_mod_cast h0
            _ ≤ distOrigin p := Real.sqrt_nonneg _
        · refine (Real.le_sqrt' ?_).mpr ?_
          · exact_mod_cast h0
          · exact_mod_cast hq
    · intro h
      rcases le_or_lt q 0 with h0 | h0
      · exact Or.inl h0
      · refine Or.inr ?_
        have := (Real.le_sqrt' (by exact_mod_cast h0)).mp h
        exact_mod_cast this)

instance (q : ℚ) (p : Vec3) : Decidable (distOrigin p ≤ (q : ℝ)) :=
  decidable_of_iff (0 ≤ q ∧ p.x ^ 2 + p.y ^ 2 + p.z ^ 2 ≤ q ^ 2) (by
    rw [distOrigin, Real.sqrt_le_iff]
    constructor
    · rintro ⟨h0, h⟩
      exact ⟨by exact_mod_cast h0, by exact_mod_cast h⟩
    · rintro ⟨h0, h⟩
      exact ⟨by exact_mod_cast h0, by exact_mod_cast h⟩)

/-- The per-point ego-frame distance filter
`np.logical_and(min_dist <= dists_origin, dists_origin <= max_dist)`. -/
def distKeep (min_dist max_dist : ℚ) (p : Vec3) : Bool :=
  decide ((min_dist : ℝ) ≤ distOrigin p) && decide (distOrigin p ≤ (max_dist : ℝ))

/-- A rigid pose from the record store: a rotation matrix (the script builds it
from the stored quaternion via `Quaternion(...).rotation_matrix`, which is
external) and a translation vector. -/
structure Pose where
  rotation : Mat3
  translation : Vec3
deriving DecidableEq

/-- A `calibrated_sensor` record: pose plus the `camera_intrinsic` field,
which is present only for camera sensors. -/
structure CalibratedSensor where
  rotation : Mat3
  translation : Vec3
  camera_intrinsic : Option Mat3

/-- The pose part of a calibrated-sensor record. -/
def CalibratedSensor.toPose (c : CalibratedSensor) : Pose :=
  ⟨c.rotation, c.translation⟩

/-- A `sample_data` record with the string fields the script reads; an empty
`next` is the traversal terminator. -/
structure SampleData where
  token : String
  filename : String
  sample_token : String
  calibrated_sensor_token : String
  ego_pose_token : String
  next : String
deriving DecidableEq

/-- A `sample` record: its `data` field maps a channel name to the
`sample_data` token of that channel, when present. -/
structure SampleRec where
  data : String → Option String

/-- A `scene` record. -/
structure SceneRec where
  first_sample_token : String

/-- Modelled from the spec: the external record store and file loaders of
section 6 (`nuscenes_utils.nuscenes.NuScenes` is not under src).  Each field
is one table of `get(table, token)`; `file_pc` is the point-cloud loader
(`PointCloud.from_file` rooted at `dataroot`) and `file_im` the image
loader, both keyed by filename. -/
structure NuScenes where
  scene : String → Option SceneRec
  sample : String → Option SampleRec
  sample_data : String → Option SampleData
  calibrated_sensor : String → Option CalibratedSensor
  ego_pose : String → Option Pose
  file_pc : String → Option (List Vec3)
  file_im : String → Option Image

/-- The `NuScenesExplorer` wrapper: the script only ever reads its `nusc`
field. -/
structure NuScenesExplorer where
  nusc : NuScenes

/-- Modelled from the spec: a record-store lookup `get(table, token)`;
a missing token surfaces the store's missing-record error (section 6 and
section 8 of the spec). -/
def getRec {α : Type} (f : String → Option α) (token : String) : Except String α :=
  match f token with
  | some r => .ok r
  | none => .error ("KeyError: " ++ token)

/-- Reading the `camera_intrinsic` field of a calibrated-sensor record, which
raises a key error when the field is absent. -/
def getIntrinsic (c : CalibratedSensor) : Except String Mat3 :=
  match c.camera_intrinsic with
  | some k => .ok k
  | none => .error "KeyError: camera_intrinsic"

/-- Resolution of the module-level global name `nusc` used inside
`export_scene_pointcloud`: reading it in an environment where it was never
bound raises a `NameError`. -/
def resolveGlobal (g : Option NuScenes) : Except String NuScenes :=
  match g with
  | some n => .ok n
  | none => .error "NameError: name nusc is not defined"

/-- The fixed list of accepted primary channels of `export_scene_pointcloud`. -/
def valid_channels : List String :=
  ["LIDAR_TOP", "RADAR_FRONT", "RADAR_FRONT_RIGHT", "RADAR_FRONT_LEFT",
   "RADAR_BACK_LEFT", "RADAR_BACK_RIGHT"]

/-- The fixed camera iteration order of `export_scene_pointcloud`. -/
def camera_channels : List String :=
  ["CAM_FRONT_LEFT", "CAM_FRONT", "CAM_FRONT_RIGHT",
   "CAM_BACK_LEFT", "CAM_BACK", "CAM_BACK_RIGHT"]

/-- The four-record transform chain of `pointcloud_color_from_image`, applied
to the whole cloud exactly as the script's sequence of `pc.rotate` and
`pc.translate` calls: source calibration, source ego pose, destination ego
pose inverted, destination calibration inverted. -/
def transformToCam (cs_src ego_src ego_dst cs_dst : Pose) (pc : List Vec3) : List Vec3 :=
  let pc1 := pc.map fun p => cs_src.rotation.mulVec p
  let pc2 := pc1.map fun p => p + cs_src.translation
  let pc3 := pc2.map fun p => ego_src.rotation.mulVec p
  let pc4 := pc3.map fun p => p + ego_src.translation
  let pc5 := pc4.map fun p => p + -ego_dst.translation
  let pc6 := pc5.map fun p => ego_dst.rotation.transpose.mulVec p
  let pc7 := pc6.map fun p => p + -cs_dst.translation
  let pc8 := pc7.map fun p => cs_dst.rotation.transpose.mulVec p
  pc8

/-- The forward elementary step in the words of the spec, section 4.2:
rotate by the pose rotation, then translate by the pose translation. -/
def stepForward (pose : Pose) (p : Vec3) : Vec3 :=
  pose.rotation.mulVec p + pose.translation

/-- The backward elementary step in the words of the spec, section 4.2:
translate by the negation of the pose translation, then rotate by the
transpose of the pose rotation. -/
def stepBackward (pose : Pose) (p : Vec3) : Vec3 :=
  pose.rotation.transpose.mulVec (p + -pose.translation)

/-- Modelled from the spec: `view_points` of `nuscenes_utils.geometry_utils`
is not under src; per section 4.3 the intrinsic is applied and, with
`normalize` set, the first two rows are divided by the third, which is left
as 1. -/
def view_points (k : Mat3) (normalize : Bool) (p : Vec3) : Vec3 :=
  let q := k.mulVec p
  if normalize then ⟨q.x / q.z, q.y / q.z, 1⟩ else q

/-- The per-point visibility test of `pointcloud_color_from_image`: positive
pre-projection depth and a projected pixel strictly inside a one-pixel
margin of the image border. -/
def visPoint (im : Image) (k : Mat3) (p : Vec3) : Bool :=
  let proj := view_points k true p
  decide (p.z > 0) && decide (proj.x > 1) && decide (proj.x < (im.width : ℚ) - 1)
    && decide (proj.y > 1) && decide (proj.y < (im.height : ℚ) - 1)

/-- The color pick of one surviving point: round the projected coordinates to
the nearest integer and read `im_data[point[1], point[0]]`. -/
def sampleColor (im : Image) (p : Vec3) : Vec3 :=
  toQ (im.pixel (nround p.y).toNat (nround p.x).toNat)

/-- The embedding of `pointcloud_color_from_image`: fetch the camera and point
sensor records and files, run the four-step transform chain into the camera
frame, project through the intrinsic, build the visibility mask and return
the colors of the masked points together with the full-length mask. -/
def pointcloud_color_from_image (nusc : NuScenes) (pointsensor_token camera_token : String) :
    Except String (List Vec3 × List Bool) := do
  let cam ← getRec nusc.sample_data camera_token
  let pointsensor ← getRec nusc.sample_data pointsensor_token
  let pc ← getRec nusc.file_pc pointsensor.filename
  let im ← getRec nusc.file_im cam.filename
  let cs_record ← getRec nusc.calibrated_sensor pointsensor.calibrated_sensor_token
  let poserecord ← getRec nusc.ego_pose pointsensor.ego_pose_token
  let poserecord2 ← getRec nusc.ego_pose cam.ego_pose_token
  let cs_record2 ← getRec nusc.calibrated_sensor cam.calibrated_sensor_token
  let camPts := transformToCam cs_record.toPose poserecord poserecord2 cs_record2.toPose pc
  let k ← getIntrinsic cs_record2
  let mask := camPts.map fun p => visPoint im k p
  let points := selectMask mask (camPts.map fun p => view_points k true p)
  let coloring := points.map fun p => sampleColor im p
  pure (coloring, mask)

/-- One iteration of the camera loop in `export_scene_pointcloud`: fetch the
channel's camera token, resolve the global `nusc` name, call
`pointcloud_color_from_image` and scatter the returned colors into the
coloring buffer at the masked positions. -/
def camStep (g : Option NuScenes) (sample_rec : SampleRec) (lidar_token : String)
    (coloring : List Vec3) (channel : String) : Except String (List Vec3) := do
  let camera_token ← getRec sample_rec.data channel
  let nusc ← resolveGlobal g
  let res ← pointcloud_color_from_image nusc lidar_token camera_token
  pure (scatter coloring res.2 res.1)

/-- The full camera loop of `export_scene_pointcloud`: starting from an
all-invalid buffer of one column per point, fold `camStep` over the six
camera channels in their fixed order. -/
def getColorings (g : Option NuScenes) (sample_rec : SampleRec) (lidar_token : String)
    (n : ℕ) : Except String (List Vec3) :=
  camera_channels.foldlM (fun coloring channel => camStep g sample_rec lidar_token coloring channel)
    (List.replicate n sentinel)

/-- One iteration of the frame loop of `export_scene_pointcloud`: fetch the
sample and lidar records and the cloud, run the camera loop, transform to
the ego frame, filter by distance to the ego origin, transform the
survivors to the global frame and emit their vertex lines. -/
def processFrame (g : Option NuScenes) (explorer : NuScenesExplorer)
    (min_dist max_dist : ℚ) (sd_rec : SampleData) : Except String (List String) := do
  let sample_rec ← getRec explorer.nusc.sample sd_rec.sample_token
  let lidar_token := sd_rec.token
  let lidar_rec ← getRec explorer.nusc.sample_data lidar_token
  let pc ← getRec explorer.nusc.file_pc lidar_rec.filename
  let coloring ← getColorings g sample_rec lidar_token pc.length
  let cs_record ← getRec explorer.nusc.calibrated_sensor lidar_rec.calibrated_sensor_token
  let pc1 := pc.map fun p => cs_record.rotation.mulVec p
  let pc2 := pc1.map fun p => p + cs_record.translation
  let keep := pc2.map fun p => distKeep min_dist max_dist p
  let pc3 := selectMask keep pc2
  let coloring2 := selectMask keep coloring
  let poserecord ← getRec explorer.nusc.ego_pose lidar_rec.ego_pose_token
  let pc4 := pc3.map fun p => poserecord.rotation.mulVec p
  let pc5 := pc4.map fun p => p + poserecord.translation
  pure (emitLines pc5 coloring2)

/-- The `while has_more_frames` loop of `export_scene_pointcloud`: process the
current record, stop when its `next` link is empty, otherwise fetch the next
record and continue.  `fuel` bounds the recursion; every finite acyclic
chain is traversed in full for any sufficiently large bound. -/
def exportLoop (proc : SampleData → Except String (List String))
    (sample_data : String → Option SampleData) : ℕ → SampleData → Except String (List String)
  | 0, _ => .error "RecursionError: frame bound exceeded"
  | fuel + 1, sd_rec => do
    let lines ← proc sd_rec
    if sd_rec.next = "" then
      pure lines
    else do
      let sd2 ← getRec sample_data sd_rec.next
      let rest ← exportLoop proc sample_data fuel sd2
      pure (lines ++ rest)

/-- The body of `export_scene_pointcloud` after the channel check: fetch the
scene, its first sample and that sample's record on the primary channel,
write the header line and run the frame loop. -/
def exportBody (g : Option NuScenes) (explorer : NuScenesExplorer)
    (scene_token channel : String) (min_dist max_dist : ℚ) (fuel : ℕ) :
    Except String (List String) := do
  let scene_rec ← getRec explorer.nusc.scene scene_token
  let start_sample_rec ← getRec explorer.nusc.sample scene_rec.first_sample_token
  let tok ← getRec start_sample_rec.data channel
  let sd_rec ← getRec explorer.nusc.sample_data tok
  let lines ← exportLoop (processFrame g explorer min_dist max_dist)
    explorer.nusc.sample_data fuel sd_rec
  pure ("OBJ File:" :: lines)

/-- The embedding of `export_scene_pointcloud`: the assertion on the primary
channel name runs before anything else; on failure nothing is fetched and
no output is produced.  The result is the full content of the output file
as a list of lines. -/
def export_scene_pointcloud (g : Option NuScenes) (explorer : NuScenesExplorer)
    (scene_token channel : String) (min_dist max_dist : ℚ) (fuel : ℕ) :
    Except String (List String) :=
  if channel ∈ valid_channels then
    exportBody g explorer scene_token channel min_dist max_dist fuel
  else
    .error ("AssertionError: Input channel " ++ channel ++ " not valid.")

/-- The default `min_dist` of `export_scene_pointcloud`. -/
def min_dist_default : ℚ := 3

/-- The default `max_dist` of `export_scene_pointcloud`. -/
def max_dist_default : ℚ := 30

/-- The finite acyclic chain of `sample_data` records followed by the frame
loop: `Chain store r frames` holds when, starting from `r` and repeatedly
fetching the non-empty `next` token from `store`, exactly the records of
`frames` are visited and the last one has an empty `next`. -/
inductive Chain (store : String → Option SampleData) : SampleData → List SampleData → Prop
  | last (r : SampleData) (h : r.next = "") : Chain store r [r]
  | cons (r r2 : SampleData) (l : List SampleData) (hne : r.next ≠ "")
      (hget : store r.next = some r2) (hc : Chain store r2 l) : Chain store r (r :: l)

instance {ε α : Type} [DecidableEq ε] [DecidableEq α] : DecidableEq (Except ε α) :=
  fun a b =>
    match a, b with
    | .ok x, .ok y =>
      if h : x = y then isTrue (by rw [h]) else isFalse (fun hh => h (Except.ok.inj hh))
    | .error x, .error y =>
      if h : x = y then isTrue (by rw [h]) else isFalse (fun hh => h (Except.error.inj hh))
    | .ok _, .error _ => isFalse (fun hh => Except.noConfusion hh)
    | .error _, .ok _ => isFalse (fun hh => Except.noConfusion hh)

/-- The identity rotation matrix, used by the concrete test scene. -/
def idM : Mat3 := ⟨1, 0, 0, 0, 1, 0, 0, 0, 1⟩

/-- The zero translation, used by the concrete test scene. -/
def v0 : Vec3 := ⟨0, 0, 0⟩

/-- A constant-color 8 by 8 test image. -/
def wImage (c : RGB) : Image := ⟨8, 8, fun _ _ => c⟩

/-- Channel-to-token map of the single test sample: the lidar plus the six
cameras, each with its own `sample_data` token. -/
def wCamToken : String → Option String := fun c =>
  if c = "LIDAR_TOP" then some "SD1"
  else if c = "CAM_FRONT_LEFT" then some "CFL"
  else if c = "CAM_FRONT" then some "CF"
  else if c = "CAM_FRONT_RIGHT" then some "CFR"
  else if c = "CAM_BACK_LEFT" then some "CBL"
  else if c = "CAM_BACK" then some "CB"
  else if c = "CAM_BACK_RIGHT" then some "CBR"
  else none

/-- The test sample record. -/
def wSample : SampleRec := ⟨wCamToken⟩

/-- The `sample_data` table of the test scene: one lidar record with an empty
`next` link and one record per camera. -/
def wSampleData : String → Option SampleData := fun t =>
  if t = "SD1" then some ⟨"SD1", "pc1", "SMP", "CSL", "EGO", ""⟩
  else if t = "CFL" then some ⟨"CFL", "imFL", "SMP", "CSC", "EGO", ""⟩
  else if t = "CF" then some ⟨"CF", "imF", "SMP", "CSC", "EGO", ""⟩
  else if t = "CFR" then some ⟨"CFR", "imFR", "SMP", "CSC", "EGO", ""⟩
  else if t = "CBL" then some ⟨"CBL", "imBL", "SMP", "CSC", "EGO", ""⟩
  else if t = "CB" then some ⟨"CB", "imB", "SMP", "CSC", "EGO", ""⟩
  else if t = "CBR" then some ⟨"CBR", "imBR", "SMP", "CSC", "EGO", ""⟩
  else none

/-- The image table of the test scene: a distinct constant color per camera. -/
def wImages : String → Option Image := fun f =>
  if f = "imFL" then some (wImage ⟨10, 0, 0⟩)
  else if f = "imF" then some (wImage ⟨20, 0, 0⟩)
  else if f = "imFR" then some (wImage ⟨30, 0, 0⟩)
  else if f = "imBL" then some (wImage ⟨40, 0, 0⟩)
  else if f = "imB" then some (wImage ⟨50, 0, 0⟩)
  else if f = "imBR" then some (wImage ⟨128, 64, 32⟩)
  else none

/-- A concrete record store: one scene, one sample, one lidar point at
coordinates (2, 2, 1), identity calibrations and poses, and six cameras with
distinct constant-color images. -/
def W : NuScenes :=
  ⟨fun t => if t = "SCN" then some ⟨"SMP"⟩ else none,
   fun t => if t = "SMP" then some wSample else none,
   wSampleData,
   fun t =>
     if t = "CSL" then some ⟨idM, v0, none⟩
     else if t = "CSC" then some ⟨idM, v0, some idM⟩ else none,
   fun t => if t = "EGO" then some ⟨idM, v0⟩ else none,
   fun f => if f = "pc1" then some [⟨2, 2, 1⟩] else none,
   wImages⟩

/-- The store `W` with every camera image replaced by an all-black image: used
to exhibit the dependence of the export on the global `nusc` binding. -/
def W2 : NuScenes :=
  ⟨W.scene, W.sample, W.sample_data, W.calibrated_sensor, W.ego_pose, W.file_pc,
   fun f => (wImages f).map fun _ => wImage ⟨0, 0, 0⟩⟩

/-- The explorer wrapping the concrete store. -/
def wExplorer : NuScenesExplorer := ⟨W⟩

/-- A three-record `sample_data` chain used to exercise the frame loop. -/
def c5store : String → Option SampleData := fun t =>
  if t = "A" then some ⟨"A", "fa", "s", "c", "e", "B"⟩
  else if t = "B" then some ⟨"B", "fb", "s", "c", "e", "C"⟩
  else if t = "C" then some ⟨"C", "fc", "s", "c", "e", ""⟩
  else none

/-- A frame processor that records which frames ran, used to observe the
traversal order of the frame loop in isolation. -/
def c5proc : SampleData → Except String (List String) := fun sd => .ok [sd.token]

theorem except_bind_ok {ε α β : Type} (e : Except ε α) (k : α → Except ε β) (out : β)
    (h : e >>= k = .ok out) : ∃ a, e = .ok a ∧ k a = .ok out := by
  cases e with
  | ok a => exact ⟨a, rfl, h⟩
  | error msg => simp [Bind.bind, Except.bind] at h

theorem ok_bind {ε α β : Type} (a : α) (k : α → Except ε β) :
    (Except.ok (ε := ε) a >>= k) = k a := rfl

theorem getRec_ok {α : Type} {f : String → Option α} {t : String} {a : α} :
    getRec f t = .ok a ↔ f t = some a := by
  unfold getRec
  cases h : f t <;> simp

theorem getRec_some {α : Type} (f : String → Option α) (t : String) (a : α)
    (h : f t = some a) : getRec f t = .ok a := getRec_ok.mpr h

theorem le_nround (q : ℚ) : ⌊q⌋ ≤ nround q := by
  unfold nround
  dsimp only
  split
  · exact le_refl _
  · split
    · omega
    · split <;> omega

theorem nround_le (q : ℚ) : nround q ≤ ⌊q⌋ + 1 := by
  unfold nround
  dsimp only
  split
  · omega
  · split
    · omega
    · split <;> omega

theorem nround_bounds (w : ℕ) (u : ℚ) (h1 : 1 < u) (h2 : u < (w : ℚ) - 1) :
    0 ≤ nround u ∧ nround u ≤ (w : ℤ) - 1 ∧ (nround u).toNat < w := by
  have hf1 : (1 : ℤ) ≤ ⌊u⌋ := by
    rw [Int.le_floor]
    push_cast
    exact h1.le
  have hf2 : ⌊u⌋ < (w : ℤ) - 1 := by
    rw [Int.floor_lt]
    push_cast
    exact h2
  have g1 := le_nround u
  have g2 := nround_le u
  omega

/-- C1.  For every point of the input cloud, `pointcloud_color_from_image`
carries it into the destination camera frame by exactly the four steps of the
spec in this order: rotate by the source calibration then translate, rotate
by the source ego pose then translate, translate by the negated destination
ego translation then rotate by the transposed rotation, translate by the
negated destination calibration translation then rotate by the transposed
rotation. -/
theorem spec2proof_C1 (cs_src ego_src ego_dst cs_dst : Pose) (pc : List Vec3) :
    transformToCam cs_src ego_src ego_dst cs_dst pc
      = pc.map fun p =>
          stepBackward cs_dst (stepBackward ego_dst (stepForward ego_src (stepForward cs_src p))) := by
  simp only [transformToCam, List.map_map]
  rfl

/-- C9.  Under the visibility mask, the rounded projected coordinates are
valid pixel indices: the rounded column lies in `[0, width - 1]`, the rounded
row lies in `[0, height - 1]`, and the natural-number indices used by the
color read `im_data[point[1], point[0]]` are strictly inside the image, so
the unchecked indexing never goes out of bounds. -/
theorem spec2proof_C9 (im : Image) (k : Mat3) (p : Vec3) (h : visPoint im k p = true) :
    0 ≤ nround (view_points k true p).x
    ∧ nround (view_points k true p).x ≤ (im.width : ℤ) - 1
    ∧ 0 ≤ nround (view_points k true p).y
    ∧ nround (view_points k true p).y ≤ (im.height : ℤ) - 1
    ∧ (nround (view_points k true p).x).toNat < im.width
    ∧ (nround (view_points k true p).y).toNat < im.height := by
  simp only [visPoint, Bool.and_eq_true, decide_eq_true_eq] at h
  obtain ⟨⟨⟨⟨hz, hx1⟩, hx2⟩, hy1⟩, hy2⟩ := h
  obtain ⟨a1, a2, a3⟩ := nround_bounds im.width (view_points k true p).x hx1 hx2
  obtain ⟨b1, b2, b3⟩ := nround_bounds im.height (view_points k true p).y hy1 hy2
  exact ⟨a1, a2, b1, b2, a3, b3⟩

/-- Witness for C9 at a concrete camera point: the lidar point (2, 2, 1) seen
through the identity intrinsic in an 8 by 8 image passes the mask and rounds
to the in-bounds pixel (2, 2). -/
theorem spec2proof_C9_witness :
    0 ≤ nround (view_points idM true ⟨2, 2, 1⟩).x
    ∧ nround (view_points idM true ⟨2, 2, 1⟩).x ≤ ((wImage ⟨128, 64, 32⟩).width : ℤ) - 1
    ∧ 0 ≤ nround (view_points idM true ⟨2, 2, 1⟩).y
    ∧ nround (view_points idM true ⟨2, 2, 1⟩).y ≤ ((wImage ⟨128, 64, 32⟩).height : ℤ) - 1
    ∧ (nround (view_points idM true ⟨2, 2, 1⟩).x).toNat < (wImage ⟨128, 64, 32⟩).width
    ∧ (nround (view_points idM true ⟨2, 2, 1⟩).y).toNat < (wImage ⟨128, 64, 32⟩).height :=
  spec2proof_C9 (wImage ⟨128, 64, 32⟩) idM ⟨2, 2, 1⟩ (by with_unfolding_all decide)

theorem hasInvalid_sentinel : hasInvalid sentinel = true := by with_unfolding_all decide

theorem hasInvalid_toQ (c : RGB) : hasInvalid (toQ c) = false := by
  have hr : (0 : ℚ) ≤ ((c.r : ℕ) : ℚ) := Nat.cast_nonneg _
  have hg : (0 : ℚ) ≤ ((c.g : ℕ) : ℚ) := Nat.cast_nonneg _
  have hb : (0 : ℚ) ≤ ((c.b : ℕ) : ℚ) := Nat.cast_nonneg _
  simp only [hasInvalid, toQ, Bool.or_eq_false_iff, decide_eq_false_iff_not]
  refine ⟨⟨fun h => ?_, fun h => ?_⟩, fun h => ?_⟩ <;> simp_all <;> linarith

/-- C6.  Frame emission writes exactly the points whose color column contains
no invalid value: the emitted lines are the vertex lines of the filtered
point-color pairs, the untouched sentinel always fails the filter (silently
skipped, no error possible in the pure emission), and every camera-assigned
color, being a raw RGB pixel, always passes it. -/
theorem spec2proof_C6 (pts coloring : List Vec3) :
    emitLines pts coloring
      = ((pts.zip coloring).filter fun vc => !hasInvalid vc.2).map (fun vc => vertexLine vc.1 vc.2)
    ∧ hasInvalid sentinel = true
    ∧ ∀ rgb : RGB, hasInvalid (toQ rgb) = false := by
  refine ⟨?_, hasInvalid_sentinel, hasInvalid_toQ⟩
  unfold emitLines
  generalize pts.zip coloring = l
  induction l with
  | nil => rfl
  | cons a l ih =>
    simp only [List.filterMap_cons, List.filter_cons]
    cases h : hasInvalid a.2 <;> simp [h, ih]

/-- C7.  The primary-channel check of `export_scene_pointcloud` runs before
any record fetch or output: for a channel outside the fixed valid set the
function returns the assertion error for every store and every other
argument, producing no output lines, and for a channel inside the set it
proceeds directly to the processing body. -/
theorem spec2proof_C7 (g : Option NuScenes) (explorer : NuScenesExplorer)
    (scene_token channel : String) (min_dist max_dist : ℚ) (fuel : ℕ) :
    (channel ∉ valid_channels →
      export_scene_pointcloud g explorer scene_token channel min_dist max_dist fuel
        = .error ("AssertionError: Input channel " ++ channel ++ " not valid."))
    ∧ (channel ∈ valid_channels →
      export_scene_pointcloud g explorer scene_token channel min_dist max_dist fuel
        = exportBody g explorer scene_token channel min_dist max_dist fuel) := by
  constructor
  · intro h
    unfold export_scene_pointcloud
    rw [if_neg h]
  · intro h
    unfold export_scene_pointcloud
    rw [if_pos h]

/-- Witness for C7: the camera name CAM_FRONT is rejected with the assertion
error while LIDAR_TOP passes the check and reaches the processing body. -/
theorem spec2proof_C7_witness :
    export_scene_pointcloud (some W) wExplorer "SCN" "CAM_FRONT" 3 30 5
      = .error ("AssertionError: Input channel " ++ "CAM_FRONT" ++ " not valid.")
    ∧ export_scene_pointcloud (some W) wExplorer "SCN" "LIDAR_TOP" 3 30 5
      = exportBody (some W) wExplorer "SCN" "LIDAR_TOP" 3 30 5 :=
  ⟨(spec2proof_C7 (some W) wExplorer "SCN" "CAM_FRONT" 3 30 5).1 (by decide),
   (spec2proof_C7 (some W) wExplorer "SCN" "LIDAR_TOP" 3 30 5).2 (by decide)⟩

theorem scatter_length {α : Type} :
    ∀ (old : List α) (m : List Bool) (new : List α), (scatter old m new).length = old.length := by
  intro old
  induction old with
  | nil => intro m new; rfl
  | cons o os ih =>
    intro m new
    cases m with
    | nil => rfl
    | cons b bs =>
      cases b with
      | true =>
        cases new with
        | nil => simp [scatter, ih]
        | cons c cs => simp [scatter, ih]
      | false => simp [scatter, ih]

theorem mem_scatter {α : Type} :
    ∀ (old : List α) (m : List Bool) (new : List α) (x : α),
      x ∈ scatter old m new → x ∈ old ∨ x ∈ new := by
  intro old
  induction old with
  | nil => intro m new x hx; simp [scatter] at hx
  | cons o os ih =>
    intro m new x hx
    cases m with
    | nil => exact Or.inl hx
    | cons b bs =>
      cases b with
      | true =>
        cases new with
        | nil =>
          simp only [scatter, if_pos rfl] at hx
          rcases List.mem_cons.mp hx with h | h
          · exact Or.inl (List.mem_cons.mpr (Or.inl h))
          · rcases ih bs [] x h with h2 | h2
            · exact Or.inl (List.mem_cons.mpr (Or.inr h2))
            · exact Or.inr h2
        | cons c cs =>
          simp only [scatter, if_pos rfl] at hx
          rcases List.mem_cons.mp hx with h | h
          · exact Or.inr (List.mem_cons.mpr (Or.inl h))
          · rcases ih bs cs x h with h2 | h2
            · exact Or.inl (List.mem_cons.mpr (Or.inr h2))
            · exact Or.inr (List.mem_cons.mpr (Or.inr h2))
      | false =>
        simp only [scatter, if_neg Bool.false_ne_true] at hx
        rcases List.mem_cons.mp hx with h | h
        · exact Or.inl (List.mem_cons.mpr (Or.inl h))
        · rcases ih bs new x h with h2 | h2
          · exact Or.inl (List.mem_cons.mpr (Or.inr h2))
          · exact Or.inr h2

theorem mem_selectMask {α : Type} :
    ∀ (m : List Bool) (l : List α) (x : α), x ∈ selectMask m l → x ∈ l := by
  intro m
  induction m with
  | nil => intro l x hx; simp [selectMask] at hx
  | cons b bs ih =>
    intro l x hx
    cases l with
    | nil => simp [selectMask] at hx
    | cons a as =>
      cases b with
      | true =>
        simp only [selectMask, if_pos rfl] at hx
        rcases List.mem_cons.mp hx with h | h
        · exact List.mem_cons.mpr (Or.inl h)
        · exact List.mem_cons.mpr (Or.inr (ih as x h))
      | false =>
        simp only [selectMask, if_neg Bool.false_ne_true] at hx
        exact List.mem_cons.mpr (Or.inr (ih as x hx))

theorem selectMask_map_true {α : Type} (f : α → Bool) :
    ∀ (l : List α) (p : α), p ∈ selectMask (l.map f) l → f p = true := by
  intro l
  induction l with
  | nil => intro p hp; simp [selectMask] at hp
  | cons a as ih =>
    intro p hp
    simp only [List.map_cons] at hp
    cases hfa : f a with
    | true =>
      rw [hfa] at hp
      simp only [selectMask, if_pos rfl] at hp
      rcases List.mem_cons.mp hp with h | h
      · rw [h]; exact hfa
      · exact ih p h
    | false =>
      rw [hfa] at hp
      simp only [selectMask, if_neg Bool.false_ne_true] at hp
      exact ih p hp

theorem scatter_select_getD {α : Type} :
    ∀ (m : List Bool) (old full : List α) (i : ℕ) (d : α),
      old.length = m.length → full.length = m.length →
      (scatter old m (selectMask m full)).getD i d
        = if m.getD i false then full.getD i d else old.getD i d := by
  intro m
  induction m with
  | nil =>
    intro old full i d h1 h2
    cases old with
    | nil => simp [scatter, selectMask, List.getD]
    | cons o os => simp at h1
  | cons b bs ih =>
    intro old full i d h1 h2
    cases old with
    | nil => simp at h1
    | cons o os =>
      cases full with
      | nil => simp at h2
      | cons x xs =>
        simp only [List.length_cons, Nat.add_right_cancel_iff] at h1 h2
        cases b with
        | true =>
          simp only [selectMask, scatter, if_pos rfl]
          cases i with
          | zero => simp
          | succ j => simpa using ih os xs j d h1 h2
        | false =>
          simp only [selectMask, scatter, if_neg Bool.false_ne_true]
          cases i with
          | zero => simp
          | succ j => simpa using ih os xs j d h1 h2

theorem foldlM_ok_of_steps {α β : Type} (step : α → β → Except String α) (g : β → α → α) :
    ∀ (l : List β), (∀ c ∈ l, ∀ a, step a c = .ok (g c a)) →
      ∀ a0 : α, l.foldlM step a0 = .ok (l.foldl (fun a c => g c a) a0) := by
  intro l
  induction l with
  | nil => intro _ a0; rfl
  | cons c cs ih =>
    intro h a0
    have hc := h c (List.mem_cons_self c cs) a0
    have hcs : ∀ x ∈ cs, ∀ a, step a x = .ok (g x a) :=
      fun x hx => h x (List.mem_cons_of_mem c hx)
    simp only [List.foldlM_cons, hc, ok_bind]
    simpa using ih hcs (g c a0)

theorem foldlM_inv {α β : Type} (P : α → Prop) (step : α → β → Except String α)
    (hstep : ∀ a c a2, step a c = .ok a2 → P a → P a2) :
    ∀ (l : List β) (a0 : α), P a0 → ∀ r, l.foldlM step a0 = .ok r → P r := by
  intro l
  induction l with
  | nil =>
    intro a0 h0 r hr
    simp only [List.foldlM_nil] at hr
    cases hr
    exact h0
  | cons c cs ih =>
    intro a0 h0 r hr
    simp only [List.foldlM_cons] at hr
    cases hstp : step a0 c with
    | error msg => rw [hstp] at hr; simp [Bind.bind, Except.bind] at hr
    | ok a1 =>
      rw [hstp, ok_bind] at hr
      exact ih a1 (hstep a0 c a1 hstp h0) r hr

theorem foldl_pick_lastWins {α β : Type} (mi : β → Bool) (fi : β → α) :
    ∀ (l : List β) (a0 : α),
      l.foldl (fun a c => if mi c then fi c else a) a0
        = (l.filter mi).getLast?.elim a0 fi := by
  intro l
  induction l with
  | nil => intro a0; simp
  | cons c cs ih =>
    intro a0
    simp only [List.foldl_cons, List.filter_cons]
    cases hmi : mi c with
    | true =>
      have h1 : (if (true = true) then fi c else a0) = fi c := if_pos rfl
      have h2 : (if (true = true) then c :: cs.filter mi else cs.filter mi)
          = c :: cs.filter mi := if_pos rfl
      rw [h1, h2, ih (fi c)]
      cases hcs : cs.filter mi with
      | nil => simp
      | cons x xs =>
        simp only [List.getLast?_cons_cons]
        cases h : (x :: xs).getLast? with
        | none =>
          have hne : x :: xs ≠ [] := by simp
          rw [← List.getLast?_isSome, h] at hne
          simp at hne
        | some y => rfl
    | false =>
      have h1 : (if (false = true) then fi c else a0) = a0 := if_neg (by simp)
      have h2 : (if (false = true) then c :: cs.filter mi else cs.filter mi)
          = cs.filter mi := if_neg (by simp)
      rw [h1, h2, ih a0]

theorem pcfi_shape (nusc : NuScenes) (pt ct : String) (out : List Vec3 × List Bool)
    (h : pointcloud_color_from_image nusc pt ct = .ok out) :
    ∃ (im : Image) (k : Mat3) (camPts : List Vec3),
      out.2 = camPts.map (fun p => visPoint im k p)
        ∧ out.1 = (selectMask out.2 (camPts.map fun p => view_points k true p)).map
            fun p => sampleColor im p := by
  unfold pointcloud_color_from_image at h
  obtain ⟨cam, hcam, h⟩ := except_bind_ok _ _ _ h
  obtain ⟨ps, hps, h⟩ := except_bind_ok _ _ _ h
  obtain ⟨pc, hpc, h⟩ := except_bind_ok _ _ _ h
  obtain ⟨im, him, h⟩ := except_bind_ok _ _ _ h
  obtain ⟨cs1, hcs1, h⟩ := except_bind_ok _ _ _ h
  obtain ⟨po1, hpo1, h⟩ := except_bind_ok _ _ _ h
  obtain ⟨po2, hpo2, h⟩ := except_bind_ok _ _ _ h
  obtain ⟨cs2, hcs2, h⟩ := except_bind_ok _ _ _ h
  obtain ⟨k, hk, h⟩ := except_bind_ok _ _ _ h
  have hA := Except.ok.inj h
  refine ⟨im, k, transformToCam cs1.toPose po1 po2 cs2.toPose pc, ?_, ?_⟩
  · rw [← hA]
  · rw [← hA]

/-- C2.  The visibility mask of `pointcloud_color_from_image` holds at a point
exactly when the pre-projection camera-frame depth is strictly positive and
the projected pixel lies strictly inside a one-pixel margin of the image,
and whenever the function succeeds, the returned colors are exactly the
samples of the points whose mask is true, so every color it hands back was
taken under those three conditions. -/
theorem spec2proof_C2 :
    (∀ (im : Image) (k : Mat3) (p : Vec3),
      visPoint im k p = true ↔
        (0 < p.z ∧ 1 < (view_points k true p).x ∧ (view_points k true p).x < (im.width : ℚ) - 1
          ∧ 1 < (view_points k true p).y ∧ (view_points k true p).y < (im.height : ℚ) - 1))
    ∧ ∀ (nusc : NuScenes) (pt ct : String) (out : List Vec3 × List Bool),
        pointcloud_color_from_image nusc pt ct = .ok out →
        ∃ (im : Image) (k : Mat3) (camPts : List Vec3),
          out.2 = camPts.map (fun p => visPoint im k p)
            ∧ out.1 = (selectMask out.2 (camPts.map fun p => view_points k true p)).map
                fun p => sampleColor im p := by
  constructor
  · intro im k p
    simp only [visPoint, Bool.and_eq_true, decide_eq_true_eq, gt_iff_lt]
    constructor
    · rintro ⟨⟨⟨⟨hz, hx1⟩, hx2⟩, hy1⟩, hy2⟩
      exact ⟨hz, hx1, hx2, hy1, hy2⟩
    · rintro ⟨hz, hx1, hx2, hy1, hy2⟩
      exact ⟨⟨⟨⟨hz, hx1⟩, hx2⟩, hy1⟩, hy2⟩
  · exact pcfi_shape

/-- Witness for C2 at a concrete call: the single lidar point of the test
store projects to pixel (2, 2) of the back-right camera image and the call
returns that camera's color with a true mask. -/
theorem spec2proof_C2_witness :
    ∃ (im : Image) (k : Mat3) (camPts : List Vec3),
      ([true] : List Bool) = camPts.map (fun p => visPoint im k p)
        ∧ ([(⟨128, 64, 32⟩ : Vec3)] : List Vec3)
            = (selectMask [true] (camPts.map fun p => view_points k true p)).map
                fun p => sampleColor im p :=
  spec2proof_C2.2 W "SD1" "CBR" ([(⟨128, 64, 32⟩ : Vec3)], [true])
    (by with_unfolding_all decide)

theorem foldl_scatter_getD (m : String → List Bool) (f : String → List Vec3) (n : ℕ) :
    ∀ (cams : List String) (acc : List Vec3),
      acc.length = n → (∀ c ∈ cams, (m c).length = n ∧ (f c).length = n) →
      ((cams.foldl (fun a c => scatter a (m c) (selectMask (m c) (f c))) acc).length = n
        ∧ ∀ (i : ℕ) (d : Vec3), i < n →
            (cams.foldl (fun a c => scatter a (m c) (selectMask (m c) (f c))) acc).getD i d
              = cams.foldl (fun x c => if (m c).getD i false then (f c).getD i d else x)
                  (acc.getD i d)) := by
  intro cams
  induction cams with
  | nil => intro acc h1 h2; exact ⟨h1, fun i d hi => rfl⟩
  | cons c cs ih =>
    intro acc h1 h2
    have hc := h2 c (List.mem_cons_self c cs)
    have hcs : ∀ x ∈ cs, (m x).length = n ∧ (f x).length = n :=
      fun x hx => h2 x (List.mem_cons_of_mem c hx)
    have hlen : (scatter acc (m c) (selectMask (m c) (f c))).length = n := by
      rw [scatter_length]; exact h1
    simp only [List.foldl_cons]
    obtain ⟨ihl, ihp⟩ := ih (scatter acc (m c) (selectMask (m c) (f c))) hlen hcs
    refine ⟨ihl, fun i d hi => ?_⟩
    rw [ihp i d hi,
      scatter_select_getD (m c) acc (f c) i d (by rw [h1, hc.1]) (by rw [hc.2, hc.1])]

/-- C3.  When every camera lookup of one frame succeeds, the camera loop
returns exactly the left fold of mask-scatters over the six channels in
their fixed order, and the final color of each point is the full color of
the last channel in that order whose mask is true there (the sentinel when
none is): later cameras unconditionally overwrite earlier ones on mask-true
entries, so a point seen by several cameras ends with the color of the last
one that saw it. -/
theorem spec2proof_C3 (g : NuScenes) (sample_rec : SampleRec) (lidar_token : String) (n : ℕ)
    (tok : String → String) (m : String → List Bool) (f : String → List Vec3)
    (h : ∀ c ∈ camera_channels, sample_rec.data c = some (tok c)
        ∧ pointcloud_color_from_image g lidar_token (tok c)
            = .ok (selectMask (m c) (f c), m c)
        ∧ (m c).length = n ∧ (f c).length = n) :
    getColorings (some g) sample_rec lidar_token n
        = .ok (camera_channels.foldl
            (fun coloring c => scatter coloring (m c) (selectMask (m c) (f c)))
            (List.replicate n sentinel))
      ∧ ∀ i < n,
        (camera_channels.foldl
            (fun coloring c => scatter coloring (m c) (selectMask (m c) (f c)))
            (List.replicate n sentinel)).getD i sentinel
          = ((camera_channels.filter fun c => (m c).getD i false).getLast?.elim sentinel
              fun c => (f c).getD i sentinel) := by
  constructor
  · unfold getColorings
    refine foldlM_ok_of_steps _ (fun c a => scatter a (m c) (selectMask (m c) (f c)))
      camera_channels ?_ (List.replicate n sentinel)
    intro c hc a
    obtain ⟨h1, h2, _, _⟩ := h c hc
    unfold camStep
    rw [getRec_some _ _ _ h1, ok_bind]
    rw [show resolveGlobal (some g) = Except.ok g from rfl, ok_bind]
    rw [h2, ok_bind]
    rfl
  · obtain ⟨hl, hp⟩ := foldl_scatter_getD m f n camera_channels (List.replicate n sentinel)
      (by simp) (fun c hc => ⟨(h c hc).2.2.1, (h c hc).2.2.2⟩)
    intro i hi
    rw [hp i sentinel hi,
      foldl_pick_lastWins (fun c => (m c).getD i false) (fun c => (f c).getD i sentinel)
        camera_channels ((List.replicate n sentinel).getD i sentinel)]
    have hrep : (List.replicate n sentinel).getD i sentinel = sentinel := by
      simp [List.getD]
    rw [hrep]

/-- Witness for C3: on the test store every camera sees the single point, so
the camera loop finishes with the back-right camera color, the last channel
in the fixed order. -/
theorem spec2proof_C3_witness :
    getColorings (some W) wSample "SD1" 1 = .ok [(⟨128, 64, 32⟩ : Vec3)] := by
  have h := spec2proof_C3 W wSample "SD1" 1
    (fun c => if c = "CAM_FRONT_LEFT" then "CFL" else if c = "CAM_FRONT" then "CF"
      else if c = "CAM_FRONT_RIGHT" then "CFR" else if c = "CAM_BACK_LEFT" then "CBL"
      else if c = "CAM_BACK" then "CB" else "CBR")
    (fun _ => [true])
    (fun c => if c = "CAM_FRONT_LEFT" then [⟨10, 0, 0⟩] else if c = "CAM_FRONT" then [⟨20, 0, 0⟩]
      else if c = "CAM_FRONT_RIGHT" then [⟨30, 0, 0⟩] else if c = "CAM_BACK_LEFT" then [⟨40, 0, 0⟩]
      else if c = "CAM_BACK" then [⟨50, 0, 0⟩] else [⟨128, 64, 32⟩])
    (by
      intro c hc
      simp only [camera_channels, List.mem_cons, List.not_mem_nil, or_false] at hc
      rcases hc with rfl | rfl | rfl | rfl | rfl | rfl <;>
        exact ⟨rfl, by with_unfolding_all decide, rfl, rfl⟩)
  rw [h.1]
  with_unfolding_all decide

/-- C4.  In every per-frame step the distance filter runs on ego-frame
coordinates, after the calibration transform and before the pose transform:
a point survives exactly when its Euclidean distance from the ego origin
lies in the closed interval from `min_dist` to `max_dist` (defaults 3 and
30), and only the surviving points are transformed to the global frame and
passed on to emission. -/
theorem spec2proof_C4 (g : Option NuScenes) (explorer : NuScenesExplorer)
    (min_dist max_dist : ℚ) (sd : SampleData) (srec : SampleRec) (lrec : SampleData)
    (pc coloring : List Vec3) (cs : CalibratedSensor) (po : Pose)
    (h1 : explorer.nusc.sample sd.sample_token = some srec)
    (h2 : explorer.nusc.sample_data sd.token = some lrec)
    (h3 : explorer.nusc.file_pc lrec.filename = some pc)
    (h4 : getColorings g srec sd.token pc.length = .ok coloring)
    (h5 : explorer.nusc.calibrated_sensor lrec.calibrated_sensor_token = some cs)
    (h6 : explorer.nusc.ego_pose lrec.ego_pose_token = some po) :
    (∀ p : Vec3, distKeep min_dist max_dist p = true ↔
        ((min_dist : ℝ) ≤ distOrigin p ∧ distOrigin p ≤ (max_dist : ℝ)))
    ∧ processFrame g explorer min_dist max_dist sd
        = .ok (emitLines
            ((selectMask
                ((pc.map fun p => cs.rotation.mulVec p + cs.translation).map
                  fun p => distKeep min_dist max_dist p)
                (pc.map fun p => cs.rotation.mulVec p + cs.translation)).map
              fun p => po.rotation.mulVec p + po.translation)
            (selectMask
              ((pc.map fun p => cs.rotation.mulVec p + cs.translation).map
                fun p => distKeep min_dist max_dist p)
              coloring))
    ∧ (∀ p ∈ selectMask
          ((pc.map fun p => cs.rotation.mulVec p + cs.translation).map
            fun p => distKeep min_dist max_dist p)
          (pc.map fun p => cs.rotation.mulVec p + cs.translation),
        (min_dist : ℝ) ≤ distOrigin p ∧ distOrigin p ≤ (max_dist : ℝ))
    ∧ min_dist_default = 3 ∧ max_dist_default = 30 := by
  have iffK : ∀ p : Vec3, distKeep min_dist max_dist p = true ↔
      ((min_dist : ℝ) ≤ distOrigin p ∧ distOrigin p ≤ (max_dist : ℝ)) := by
    intro p
    simp [distKeep, Bool.and_eq_true, decide_eq_true_eq]
  refine ⟨iffK, ?_, ?_, rfl, rfl⟩
  · simp only [processFrame, getRec, h1, h2, h3, h4, h5, h6, Bind.bind, Except.bind,
      List.map_map]
    rfl
  · intro p hp
    exact (iffK p).mp
      (selectMask_map_true (fun p => distKeep min_dist max_dist p)
        (pc.map fun p => cs.rotation.mulVec p + cs.translation) p hp)

/-- Witness for C4 on the test frame: the single point lies at ego distance
exactly 3, the inclusive lower default bound, so it survives and is emitted
with the last camera color. -/
theorem spec2proof_C4_witness :
    processFrame (some W) wExplorer 3 30 ⟨"SD1", "pc1", "SMP", "CSL", "EGO", ""⟩
      = .ok ["v 2.00000000 2.00000000 1.00000000 0.5020 0.2510 0.1255"] := by
  have h := spec2proof_C4 (some W) wExplorer 3 30 ⟨"SD1", "pc1", "SMP", "CSL", "EGO", ""⟩
    wSample ⟨"SD1", "pc1", "SMP", "CSL", "EGO", ""⟩ [⟨2, 2, 1⟩] [⟨128, 64, 32⟩]
    ⟨idM, v0, none⟩ ⟨idM, v0⟩ rfl rfl rfl (by with_unfolding_all decide) rfl rfl
  rw [h.2.1]
  with_unfolding_all decide

theorem exportLoop_chain (proc : SampleData → Except String (List String))
    (store : String → Option SampleData) :
    ∀ (sd : SampleData) (frames : List SampleData), Chain store sd frames →
      ∀ fuel : ℕ, frames.length ≤ fuel →
      exportLoop proc store fuel sd = (frames.mapM proc).map List.flatten := by
  intro sd frames hc
  induction hc with
  | last r hr =>
    intro fuel hf
    cases fuel with
    | zero => simp at hf
    | succ f =>
      simp only [exportLoop]
      rw [List.mapM_cons, List.mapM_nil]
      cases hp : proc r with
      | error e => simp [Bind.bind, Except.bind, Except.map]
      | ok ls => simp [Bind.bind, Except.bind, Except.map, Pure.pure, Except.pure, hr]
  | cons r r2 l hne hget hc2 ih =>
    intro fuel hf
    cases fuel with
    | zero => simp at hf
    | succ f =>
      have hlen : l.length ≤ f := by
        simp only [List.length_cons] at hf
        omega
      simp only [exportLoop]
      rw [List.mapM_cons]
      cases hp : proc r with
      | error e => simp [Bind.bind, Except.bind, Except.map]
      | ok ls =>
        rw [ok_bind, if_neg hne, getRec_some _ _ _ hget, ok_bind, ih f hlen]
        cases hm : l.mapM proc with
        | error e => simp [Bind.bind, Except.bind, Except.map]
        | ok lss => simp [Bind.bind, Except.bind, Except.map, Pure.pure, Except.pure]

/-- C5.  The frame loop processes exactly the finite acyclic chain of records
reached by following non-empty `next` links — a chain of k records yields the
sequential run over those k frames, for every recursion bound at least k —
and it stops exactly on an empty `next`: a non-empty `next` naming a missing
token surfaces the record store's missing-record error instead of stopping
silently. -/
theorem spec2proof_C5 :
    (∀ (store : String → Option SampleData) (proc : SampleData → Except String (List String))
        (sd : SampleData) (frames : List SampleData) (fuel : ℕ),
        Chain store sd frames → frames.length ≤ fuel →
        exportLoop proc store fuel sd = (frames.mapM proc).map List.flatten)
    ∧ ∀ (store : String → Option SampleData) (proc : SampleData → Except String (List String))
        (sd : SampleData) (lines : List String) (fuel : ℕ),
        sd.next ≠ "" → store sd.next = none → proc sd = .ok lines →
        exportLoop proc store (fuel + 1) sd = .error ("KeyError: " ++ sd.next) := by
  constructor
  · intro store proc sd frames fuel hc hf
    exact exportLoop_chain proc store sd frames hc fuel hf
  · intro store proc sd lines fuel hne hmiss hproc
    simp only [exportLoop]
    rw [hproc, ok_bind, if_neg hne]
    have : getRec store sd.next = .error ("KeyError: " ++ sd.next) := by
      unfold getRec
      rw [hmiss]
    rw [this]
    rfl

/-- Witness for C5: the three-record chain A, B, C is traversed as exactly
three frames, and a record whose non-empty `next` names a missing token
makes the loop fail with the missing-record error. -/
theorem spec2proof_C5_witness :
    exportLoop c5proc c5store 3 ⟨"A", "fa", "s", "c", "e", "B"⟩
        = (([⟨"A", "fa", "s", "c", "e", "B"⟩, ⟨"B", "fb", "s", "c", "e", "C"⟩,
            ⟨"C", "fc", "s", "c", "e", ""⟩] : List SampleData).mapM c5proc).map List.flatten
      ∧ exportLoop c5proc c5store (0 + 1) ⟨"X", "fx", "s", "c", "e", "MISSING"⟩
        = .error ("KeyError: " ++ (⟨"X", "fx", "s", "c", "e", "MISSING"⟩ : SampleData).next) :=
  ⟨spec2proof_C5.1 c5store c5proc ⟨"A", "fa", "s", "c", "e", "B"⟩
      [⟨"A", "fa", "s", "c", "e", "B"⟩, ⟨"B", "fb", "s", "c", "e", "C"⟩,
        ⟨"C", "fc", "s", "c", "e", ""⟩] 3
      (Chain.cons ⟨"A", "fa", "s", "c", "e", "B"⟩ ⟨"B", "fb", "s", "c", "e", "C"⟩
        [⟨"B", "fb", "s", "c", "e", "C"⟩, ⟨"C", "fc", "s", "c", "e", ""⟩]
        (by decide) (by with_unfolding_all decide)
        (Chain.cons ⟨"B", "fb", "s", "c", "e", "C"⟩ ⟨"C", "fc", "s", "c", "e", ""⟩
          [⟨"C", "fc", "s", "c", "e", ""⟩]
          (by decide) (by with_unfolding_all decide)
          (Chain.last ⟨"C", "fc", "s", "c", "e", ""⟩ rfl)))
      (by decide),
   spec2proof_C5.2 c5store c5proc ⟨"X", "fx", "s", "c", "e", "MISSING"⟩ ["X"] 0
      (by decide) (by with_unfolding_all decide) rfl⟩

theorem mem_emitLines (pts coloring : List Vec3) (s : String)
    (hs : s ∈ emitLines pts coloring) :
    ∃ vc ∈ pts.zip coloring, hasInvalid vc.2 = false ∧ s = vertexLine vc.1 vc.2 := by
  unfold emitLines at hs
  obtain ⟨vc, hvc, hf⟩ := List.mem_filterMap.mp hs
  cases hinv : hasInvalid vc.2 with
  | true => rw [if_pos hinv] at hf; exact absurd hf (by simp)
  | false =>
    rw [if_neg (by simp [hinv])] at hf
    exact ⟨vc, hvc, hinv, (Option.some.inj hf).symm⟩

theorem pcfi_colors (nusc : NuScenes) (pt ct : String) (out : List Vec3 × List Bool)
    (h : pointcloud_color_from_image nusc pt ct = .ok out) :
    ∀ c ∈ out.1, ∃ rgb, c = toQ rgb := by
  obtain ⟨im, k, camPts, hmask, hcol⟩ := pcfi_shape nusc pt ct out h
  intro c hc
  rw [hcol] at hc
  obtain ⟨p, hp, hpc⟩ := List.mem_map.mp hc
  exact ⟨im.pixel (nround p.y).toNat (nround p.x).toNat, hpc.symm⟩

theorem camStep_inv (g : Option NuScenes) (sr : SampleRec) (lt : String)
    (a : List Vec3) (ch : String) (a2 : List Vec3)
    (h : camStep g sr lt a ch = .ok a2)
    (ha : ∀ x ∈ a, x = sentinel ∨ ∃ rgb, x = toQ rgb) :
    ∀ x ∈ a2, x = sentinel ∨ ∃ rgb, x = toQ rgb := by
  unfold camStep at h
  obtain ⟨ctok, hctok, h⟩ := except_bind_ok _ _ _ h
  obtain ⟨nusc, hnusc, h⟩ := except_bind_ok _ _ _ h
  obtain ⟨res, hres, h⟩ := except_bind_ok _ _ _ h
  have ha2 := Except.ok.inj h
  intro x hx
  rw [← ha2] at hx
  rcases mem_scatter a res.2 res.1 x hx with hmem | hmem
  · exact ha x hmem
  · obtain ⟨rgb, hrgb⟩ := pcfi_colors nusc lt ctok res hres x hmem
    exact Or.inr ⟨rgb, hrgb⟩

theorem getColorings_inv (g : Option NuScenes) (sr : SampleRec) (lt : String) (n : ℕ)
    (cols : List Vec3) (h : getColorings g sr lt n = .ok cols) :
    ∀ x ∈ cols, x = sentinel ∨ ∃ rgb, x = toQ rgb := by
  unfold getColorings at h
  refine foldlM_inv (fun a => ∀ x ∈ a, x = sentinel ∨ ∃ rgb, x = toQ rgb)
    (fun coloring channel => camStep g sr lt coloring channel)
    (fun a c a2 hstep ha => camStep_inv g sr lt a c a2 hstep ha)
    camera_channels (List.replicate n sentinel)
    (fun x hx => Or.inl (List.eq_of_mem_replicate hx)) cols h

theorem processFrame_lines (g : Option NuScenes) (explorer : NuScenesExplorer)
    (mi ma : ℚ) (sd : SampleData) (lines : List String)
    (h : processFrame g explorer mi ma sd = .ok lines) :
    ∀ s ∈ lines, ∃ (p : Vec3) (rgb : RGB), s = vertexLine p (toQ rgb) := by
  unfold processFrame at h
  obtain ⟨srec, hsrec, h⟩ := except_bind_ok _ _ _ h
  obtain ⟨lrec, hlrec, h⟩ := except_bind_ok _ _ _ h
  obtain ⟨pc, hpc, h⟩ := except_bind_ok _ _ _ h
  obtain ⟨cols, hcols, h⟩ := except_bind_ok _ _ _ h
  obtain ⟨cs, hcs, h⟩ := except_bind_ok _ _ _ h
  obtain ⟨po, hpo, h⟩ := except_bind_ok _ _ _ h
  have hl := Except.ok.inj h
  intro s hs
  rw [← hl] at hs
  obtain ⟨vc, hvc, hinv, hsv⟩ := mem_emitLines _ _ s hs
  have h2 := (List.of_mem_zip hvc).2
  have h3 := mem_selectMask _ _ _ h2
  rcases getColorings_inv g srec sd.token pc.length cols hcols vc.2 h3 with hsent | ⟨rgb, hrgb⟩
  · rw [hsent, hasInvalid_sentinel] at hinv
    exact absurd hinv (by simp)
  · exact ⟨vc.1, rgb, by rw [hsv, hrgb]⟩

theorem exportLoop_lines (proc : SampleData → Except String (List String))
    (store : String → Option SampleData) (q : String → Prop)
    (hproc : ∀ sd lines, proc sd = .ok lines → ∀ s ∈ lines, q s) :
    ∀ (fuel : ℕ) (sd : SampleData) (r : List String),
      exportLoop proc store fuel sd = .ok r → ∀ s ∈ r, q s := by
  intro fuel
  induction fuel with
  | zero => intro sd r h; simp [exportLoop] at h
  | succ f ih =>
    intro sd r h
    simp only [exportLoop] at h
    obtain ⟨lines, hlines, h⟩ := except_bind_ok _ _ _ h
    by_cases hne : sd.next = ""
    · rw [if_pos hne] at h
      have heq := Except.ok.inj h
      intro s hs
      rw [← heq] at hs
      exact hproc sd lines hlines s hs
    · rw [if_neg hne] at h
      obtain ⟨sd2, hsd2, h⟩ := except_bind_ok _ _ _ h
      obtain ⟨rest, hrest, h⟩ := except_bind_ok _ _ _ h
      have heq := Except.ok.inj h
      intro s hs
      rw [← heq] at hs
      rcases List.mem_append.mp hs with hm | hm
      · exact hproc sd lines hlines s hm
      · exact ih sd2 rest hrest s hm

theorem toQ_channel_bounds (rgb : RGB) :
    0 ≤ (toQ rgb).x / 255 ∧ (toQ rgb).x / 255 ≤ 1
    ∧ 0 ≤ (toQ rgb).y / 255 ∧ (toQ rgb).y / 255 ≤ 1
    ∧ 0 ≤ (toQ rgb).z / 255 ∧ (toQ rgb).z / 255 ≤ 1 := by
  have hr : ((rgb.r : ℕ) : ℚ) ≤ 255 := by exact_mod_cast Nat.lt_succ_iff.mp rgb.r.isLt
  have hg : ((rgb.g : ℕ) : ℚ) ≤ 255 := by exact_mod_cast Nat.lt_succ_iff.mp rgb.g.isLt
  have hb : ((rgb.b : ℕ) : ℚ) ≤ 255 := by exact_mod_cast Nat.lt_succ_iff.mp rgb.b.isLt
  simp only [toQ]
  refine ⟨by positivity, ?_, by positivity, ?_, by positivity, ?_⟩
  · rw [div_le_one (by norm_num)]; exact hr
  · rw [div_le_one (by norm_num)]; exact hg
  · rw [div_le_one (by norm_num)]; exact hb

/-- C8.  Every successful export is a single header line that is exactly
`OBJ File:` followed by one `v` line per emitted point: three coordinates at
8 decimal places and three color fields that are the raw 0-255 channel
values divided by 255 at 4 decimal places, all lying in the closed unit
interval; in particular the pixel (128, 64, 32) yields the color fields
0.5020, 0.2510 and 0.1255. -/
theorem spec2proof_C8 :
    (∀ (g : Option NuScenes) (explorer : NuScenesExplorer) (scene_token channel : String)
        (min_dist max_dist : ℚ) (fuel : ℕ) (out : List String),
        export_scene_pointcloud g explorer scene_token channel min_dist max_dist fuel
          = .ok out →
        ∃ rest, out = "OBJ File:" :: rest
          ∧ ∀ s ∈ rest, ∃ (p : Vec3) (rgb : RGB),
              s = "v " ++ fmtFixed 8 p.x ++ " " ++ fmtFixed 8 p.y ++ " " ++ fmtFixed 8 p.z
                ++ " " ++ fmtFixed 4 ((toQ rgb).x / 255) ++ " "
                ++ fmtFixed 4 ((toQ rgb).y / 255) ++ " " ++ fmtFixed 4 ((toQ rgb).z / 255)
              ∧ 0 ≤ (toQ rgb).x / 255 ∧ (toQ rgb).x / 255 ≤ 1
              ∧ 0 ≤ (toQ rgb).y / 255 ∧ (toQ rgb).y / 255 ≤ 1
              ∧ 0 ≤ (toQ rgb).z / 255 ∧ (toQ rgb).z / 255 ≤ 1)
    ∧ fmtFixed 4 ((128 : ℚ) / 255) = "0.5020"
    ∧ fmtFixed 4 ((64 : ℚ) / 255) = "0.2510"
    ∧ fmtFixed 4 ((32 : ℚ) / 255) = "0.1255" := by
  refine ⟨?_, by with_unfolding_all decide, by with_unfolding_all decide,
    by with_unfolding_all decide⟩
  intro g explorer scene_token channel mi ma fuel out h
  unfold export_scene_pointcloud at h
  split at h
  · unfold exportBody at h
    obtain ⟨sc, hsc, h⟩ := except_bind_ok _ _ _ h
    obtain ⟨sam, hsam, h⟩ := except_bind_ok _ _ _ h
    obtain ⟨tok, htok, h⟩ := except_bind_ok _ _ _ h
    obtain ⟨sd0, hsd0, h⟩ := except_bind_ok _ _ _ h
    obtain ⟨lines, hlines, h⟩ := except_bind_ok _ _ _ h
    have hout := Except.ok.inj h
    refine ⟨lines, hout.symm, ?_⟩
    intro s hs
    obtain ⟨p, rgb, hsv⟩ :=
      exportLoop_lines (processFrame g explorer mi ma) explorer.nusc.sample_data
        (fun s => ∃ (p : Vec3) (rgb : RGB), s = vertexLine p (toQ rgb))
        (fun sd lines2 hp => processFrame_lines g explorer mi ma sd lines2 hp)
        fuel sd0 lines hlines s hs
    obtain ⟨b1, b2, b3, b4, b5, b6⟩ := toQ_channel_bounds rgb
    exact ⟨p, rgb, by rw [hsv]; rfl, b1, b2, b3, b4, b5, b6⟩
  · exact absurd h (by simp)

/-- Witness for C8 on the test scene: the export succeeds with the header
line followed by one vertex line whose color fields are 128, 64 and 32 over
255 at 4 decimal places. -/
theorem spec2proof_C8_witness :
    ∃ rest,
      (["OBJ File:", "v 2.00000000 2.00000000 1.00000000 0.5020 0.2510 0.1255"] : List String)
        = "OBJ File:" :: rest
      ∧ ∀ s ∈ rest, ∃ (p : Vec3) (rgb : RGB),
          s = "v " ++ fmtFixed 8 p.x ++ " " ++ fmtFixed 8 p.y ++ " " ++ fmtFixed 8 p.z
            ++ " " ++ fmtFixed 4 ((toQ rgb).x / 255) ++ " "
            ++ fmtFixed 4 ((toQ rgb).y / 255) ++ " " ++ fmtFixed 4 ((toQ rgb).z / 255)
          ∧ 0 ≤ (toQ rgb).x / 255 ∧ (toQ rgb).x / 255 ≤ 1
          ∧ 0 ≤ (toQ rgb).y / 255 ∧ (toQ rgb).y / 255 ≤ 1
          ∧ 0 ≤ (toQ rgb).z / 255 ∧ (toQ rgb).z / 255 ≤ 1 :=
  spec2proof_C8.1 (some W) wExplorer "SCN" "LIDAR_TOP" 3 30 5
    ["OBJ File:", "v 2.00000000 2.00000000 1.00000000 0.5020 0.2510 0.1255"]
    (by with_unfolding_all decide)

theorem getColorings_none (sr : SampleRec) (lt : String) (n : ℕ) (ctok : String)
    (h : sr.data "CAM_FRONT_LEFT" = some ctok) :
    getColorings none sr lt n = .error "NameError: name nusc is not defined" := by
  unfold getColorings
  rw [show camera_channels = "CAM_FRONT_LEFT"
      :: ["CAM_FRONT", "CAM_FRONT_RIGHT", "CAM_BACK_LEFT", "CAM_BACK", "CAM_BACK_RIGHT"]
    from rfl]
  simp only [List.foldlM_cons]
  have hstep : camStep none sr lt (List.replicate n sentinel) "CAM_FRONT_LEFT"
      = .error "NameError: name nusc is not defined" := by
    unfold camStep
    rw [getRec_some _ _ _ h, ok_bind]
    rfl
  rw [hstep]
  rfl

theorem processFrame_none (explorer : NuScenesExplorer) (mi ma : ℚ)
    (sd : SampleData) (srec : SampleRec) (lrec : SampleData) (pts : List Vec3) (ctok : String)
    (h5 : explorer.nusc.sample sd.sample_token = some srec)
    (h6 : explorer.nusc.sample_data sd.token = some lrec)
    (h7 : explorer.nusc.file_pc lrec.filename = some pts)
    (h8 : srec.data "CAM_FRONT_LEFT" = some ctok) :
    processFrame none explorer mi ma sd = .error "NameError: name nusc is not defined" := by
  simp only [processFrame, getRec, h5, h6, h7, Bind.bind, Except.bind]
  rw [getColorings_none srec sd.token pts.length ctok h8]

/-- C10.  The per-camera color computation of `export_scene_pointcloud` reads
the record store through the module-level global name `nusc`, not through
the `explorer` parameter: two calls with identical explicit arguments but
different global bindings can give different results, and whenever the
global is unbound, the first camera of the first frame raises the name
error for every call that reaches it. -/
theorem spec2proof_C10 :
    (∃ (g1 g2 : Option NuScenes) (explorer : NuScenesExplorer) (scene_token channel : String)
        (min_dist max_dist : ℚ) (fuel : ℕ),
        export_scene_pointcloud g1 explorer scene_token channel min_dist max_dist fuel
          ≠ export_scene_pointcloud g2 explorer scene_token channel min_dist max_dist fuel)
    ∧ ∀ (explorer : NuScenesExplorer) (scene_token channel : String) (min_dist max_dist : ℚ)
        (fuel : ℕ) (sc : SceneRec) (sam : SampleRec) (tok : String) (sd : SampleData)
        (srec : SampleRec) (lrec : SampleData) (pts : List Vec3) (ctok : String),
        channel ∈ valid_channels →
        explorer.nusc.scene scene_token = some sc →
        explorer.nusc.sample sc.first_sample_token = some sam →
        sam.data channel = some tok →
        explorer.nusc.sample_data tok = some sd →
        explorer.nusc.sample sd.sample_token = some srec →
        explorer.nusc.sample_data sd.token = some lrec →
        explorer.nusc.file_pc lrec.filename = some pts →
        srec.data "CAM_FRONT_LEFT" = some ctok →
        export_scene_pointcloud none explorer scene_token channel min_dist max_dist (fuel + 1)
          = .error "NameError: name nusc is not defined" := by
  constructor
  · exact ⟨some W, some W2, wExplorer, "SCN", "LIDAR_TOP", 3, 30, 5,
      by with_unfolding_all decide⟩
  · intro explorer scene_token channel mi ma fuel sc sam tok sd srec lrec pts ctok
      hch h1 h2 h3 h4 h5 h6 h7 h8
    unfold export_scene_pointcloud
    rw [if_pos hch]
    simp only [exportBody, getRec, h1, h2, h3, h4, Bind.bind, Except.bind]
    have hloop : exportLoop (processFrame none explorer mi ma) explorer.nusc.sample_data
        (fuel + 1) sd = .error "NameError: name nusc is not defined" := by
      simp only [exportLoop]
      rw [processFrame_none explorer mi ma sd srec lrec pts ctok h5 h6 h7 h8]
      rfl
    rw [hloop]

/-- Witness for C10: with the global left unbound, the export on the test
store fails with the name error while processing the first camera of the
first frame. -/
theorem spec2proof_C10_witness :
    export_scene_pointcloud none wExplorer "SCN" "LIDAR_TOP" 3 30 (4 + 1)
      = .error "NameError: name nusc is not defined" :=
  spec2proof_C10.2 wExplorer "SCN" "LIDAR_TOP" 3 30 4 ⟨"SMP"⟩ wSample "SD1"
    ⟨"SD1", "pc1", "SMP", "CSL", "EGO", ""⟩ wSample ⟨"SD1", "pc1", "SMP", "CSL", "EGO", ""⟩
    [⟨2, 2, 1⟩] "CFL" (by decide) rfl rfl rfl rfl rfl rfl rfl rfl
